import Mathlib

/-!
Shallow embedding of the react-gantt-nl coordinate/layout engine and
drag-interaction controller, together with proofs of the specified
properties.

Modelling conventions:
* A JavaScript `Date` is modelled as its epoch value in milliseconds, an
  integer (`ℤ`).  `date.getTime()` is the value itself; comparison of two
  `Date`s (`<`, `>=`, …) compares epoch values, which matches JS semantics.
* Calendar-field operations (`setHours(0,0,0,0)`, `setDate`) are modelled
  for a fixed-offset, DST-free timezone (offset 0), where "local midnight
  of d" is flooring the epoch value to a multiple of `MS_PER_DAY`.
* Pixel positions and chart widths are modelled as exact rationals (`ℚ`);
  the source uses IEEE doubles, and the spec states its equalities
  "within floating-point tolerance", i.e. exactly in real arithmetic.
* `new Date(t)` for a fractional `t` truncates toward zero
  (ECMA-262 `TimeClip` / `ToIntegerOrInfinity`); `ratTrunc` models this.
* Optional TS fields (`baselineStart?: Date`, `parentId?: string`, …)
  become `Option` fields; an absent field is `none`.  Note that the JS
  truthiness test `!t.parentId` is also true for the empty string, which
  the embedding reproduces (see `rootTasks`).
-/

namespace Gantt

/-- ms per day; source constant `MS_PER_DAY = 24 * 60 * 60 * 1000`. -/
def msPerDay : ℤ := 24 * 60 * 60 * 1000

/-- Truncation toward zero of a rational, as performed by `new Date(t)`
(ECMA-262 `ToIntegerOrInfinity`) on a fractional millisecond value. -/
def ratTrunc (q : ℚ) : ℤ := if q < 0 then ⌈q⌉ else ⌊q⌋

/-- Source `startOfDay` (`src/utils/date.ts`): `setHours(0,0,0,0)`, i.e.
floor the epoch value to the enclosing local-midnight boundary
(fixed-offset timezone model). -/
def startOfDay (t : ℤ) : ℤ := msPerDay * (t.fdiv msPerDay)

/-- Source `endOfDay` (`src/utils/date.ts`): `setHours(23,59,59,999)`,
i.e. the last millisecond of the same local day. -/
def endOfDay (t : ℤ) : ℤ := startOfDay t + msPerDay - 1

/-- Source `addDays` (`src/utils/date.ts`):
`result.setDate(result.getDate() + days)`.  For an integer `days` this
shifts the epoch value by exactly `days * MS_PER_DAY` (no DST in the
model).  For a fractional `days`, `setDate` truncates its argument
(`ToIntegerOrInfinity`), which amounts to shifting by `⌊days⌋` whole days
whenever `dayOfMonth + days ≥ 0` — true for every call site in this
library (the only fractional call is a move gesture's duration, which is
nonnegative for `start ≤ end` tasks; the integer calls are `±1`, `±padding`). -/
def addDays (t : ℤ) (days : ℚ) : ℤ := t + ⌊days⌋ * msPerDay

/-- Source `addWeeks` (`src/utils/date.ts`). -/
def addWeeks (t : ℤ) (weeks : ℚ) : ℤ := addDays t (weeks * 7)

/-- Source `diffInDays` (`src/utils/date.ts`):
`(end.getTime() - start.getTime()) / MS_PER_DAY`, an exact rational. -/
def diffInDays (start «end» : ℤ) : ℚ := ((«end» - start : ℤ) : ℚ) / (msPerDay : ℚ)

/-- Time-scale of the chart axis (source `ViewMode`). -/
inductive ViewMode where
  | day
  | week
  | month
deriving DecidableEq, Repr

/-- Task variant tag (source `'task' | 'milestone' | 'group'`). -/
inductive TaskType where
  | task
  | milestone
  | group
deriving DecidableEq, Repr

/-- Source `GanttTask`.  Field types follow the public API table
(`id/name/type/start/end/progress` required; the rest optional).
`end` is a Lean keyword, hence the guillemet spelling `«end»`. -/
structure GanttTask where
  id : String
  name : String
  type : TaskType
  start : ℤ
  «end» : ℤ
  progress : ℤ
  baselineStart : Option ℤ := none
  baselineEnd : Option ℤ := none
  parentId : Option String := none
  isCritical : Bool := false
  isDisabled : Bool := false
  color : Option String := none
deriving DecidableEq, Repr

/-- Source `DateRange`: derived range with day-count. -/
structure DateRange where
  start : ℤ
  «end» : ℤ
  totalDays : ℤ
deriving DecidableEq, Repr

/-- The slice of the source `GanttConfig` the modelled functions read. -/
structure GanttConfig where
  viewMode : ViewMode := .day
  allowDrag : Bool := true
  allowResize : Bool := true
deriving DecidableEq, Repr

/-- Source `ComputedTask`: a task augmented with derived geometry.  The
source spreads the task's own fields (`...task`); the embedding nests
them as a `task` field. -/
structure ComputedTask where
  task : GanttTask
  x : ℚ
  width : ℚ
  rowIndex : ℤ
  baselineX : Option ℚ
  baselineWidth : Option ℚ
  level : ℕ
  isCollapsed : Bool
  isVisible : Bool
deriving DecidableEq, Repr

/-- Source `dateToX` (`src/utils/position.ts`): linear interpolation
`(date - range.start) / (range.end - range.start) * chartWidth`. -/
def dateToX (date : ℤ) (dateRange : DateRange) (chartWidth : ℚ) : ℚ :=
  ((date - dateRange.start : ℤ) : ℚ) / ((dateRange.«end» - dateRange.start : ℤ) : ℚ)
    * chartWidth

/-- Source `xToDate` (`src/utils/position.ts`):
`new Date(range.start.getTime() + (x / chartWidth) * totalMs)`; the `Date`
constructor truncates the fractional millisecond value toward zero. -/
def xToDate (x : ℚ) (dateRange : DateRange) (chartWidth : ℚ) : ℤ :=
  ratTrunc ((dateRange.start : ℚ)
    + x / chartWidth * ((dateRange.«end» - dateRange.start : ℤ) : ℚ))

/-- Source `calculateBarWidth` (`src/utils/position.ts`):
`max(dateToX(end) - dateToX(start), minWidth)`; the source default for
`minWidth` is `4`, passed explicitly here. -/
def calculateBarWidth (start «end» : ℤ) (dateRange : DateRange) (chartWidth : ℚ)
    (minWidth : ℚ) : ℚ :=
  max (dateToX «end» dateRange chartWidth - dateToX start dateRange chartWidth) minWidth

/-- Source `snapToGrid` (`src/utils/position.ts`): convert the pixel to a
date, truncate to the day boundary (every view mode snaps to whole days),
convert back. -/
def snapToGrid (x : ℚ) (dateRange : DateRange) (chartWidth : ℚ) (viewMode : ViewMode) : ℚ :=
  let date := xToDate x dateRange chartWidth
  let snappedDate : ℤ :=
    match viewMode with
    | .day => startOfDay date
    | .week => startOfDay date
    | .month => startOfDay date
  dateToX snappedDate dateRange chartWidth

/-- One element of the flattened hierarchy (source: the anonymous
`{ task, level, isVisible }` triple produced by `flattenTasks`). -/
structure FlatEntry where
  task : GanttTask
  level : ℕ
  isVisible : Bool
deriving DecidableEq, Repr

/-- Children scan (source `flattenTasks`, inner
`tasks.filter((t) => t.parentId === task.id)`). -/
def childrenOf (tasks : List GanttTask) (id : String) : List GanttTask :=
  tasks.filter (fun t => t.parentId == some id)

/-- Source `flattenTasks` root scan:
`tasks.filter((t) => !t.parentId || !taskMap.has(t.parentId))`.
JS truthiness: `!t.parentId` holds for `undefined` and for the empty
string; `taskMap.has` asks whether some task carries that id. -/
def rootTasks (tasks : List GanttTask) : List GanttTask :=
  tasks.filter (fun t =>
    match t.parentId with
    | none => true
    | some pid => pid == "" || !(tasks.any (fun u => u.id == pid)))

/-- Source `flattenTasks`, inner recursive `addTask(task, level,
parentVisible)`.  The source recursion is structurally unbounded (it
diverges on cyclic parent chains, an explicitly open question of the
spec); the embedding adds a fuel argument, instantiated generously by
`flattenTasks` — for inputs on which the source terminates the fuel is
never exhausted, and all proved statements quantify over produced
entries only. -/
def addTask (tasks : List GanttTask) (collapsedIds : List String) :
    ℕ → GanttTask → ℕ → Bool → List FlatEntry
  | 0, _, _, _ => []
  | fuel + 1, task, level, parentVisible =>
    let isCollapsed := collapsedIds.contains task.id
    let isVisible := parentVisible
    { task := task, level := level, isVisible := isVisible } ::
      (childrenOf tasks task.id).flatMap
        (fun child => addTask tasks collapsedIds fuel child (level + 1)
          (isVisible && !isCollapsed))

/-- Source `flattenTasks` (`src/utils/position.ts`): pre-order traversal
from the roots, each root entered with `parentVisible = true`. -/
def flattenTasks (tasks : List GanttTask) (collapsedIds : List String) : List FlatEntry :=
  (rootTasks tasks).flatMap
    (fun task => addTask tasks collapsedIds (tasks.length + 1) task 0 true)

/-- Source `computeTaskPositions` body: the `flatTasks.map` with the
captured mutable `visibleRowIndex` counter, written as recursion with the
counter threaded through. -/
def computeTaskPositionsGo (dateRange : DateRange) (chartWidth : ℚ)
    (collapsedIds : List String) : ℕ → List FlatEntry → List ComputedTask
  | _, [] => []
  | visibleRowIndex, fe :: rest =>
    let x := dateToX fe.task.start dateRange chartWidth
    let width := calculateBarWidth fe.task.start fe.task.«end» dateRange chartWidth 4
    let baselineX : Option ℚ :=
      match fe.task.baselineStart, fe.task.baselineEnd with
      | some bs, some _ => some (dateToX bs dateRange chartWidth)
      | _, _ => none
    let baselineWidth : Option ℚ :=
      match fe.task.baselineStart, fe.task.baselineEnd with
      | some bs, some be => some (calculateBarWidth bs be dateRange chartWidth 4)
      | _, _ => none
    let rowIndex : ℤ := if fe.isVisible then (visibleRowIndex : ℤ) else -1
    { task := fe.task, x := x, width := width, rowIndex := rowIndex,
      baselineX := baselineX, baselineWidth := baselineWidth,
      level := fe.level, isCollapsed := collapsedIds.contains fe.task.id,
      isVisible := fe.isVisible } ::
      computeTaskPositionsGo dateRange chartWidth collapsedIds
        (if fe.isVisible then visibleRowIndex + 1 else visibleRowIndex) rest

/-- Source `computeTaskPositions` (`src/utils/position.ts`). -/
def computeTaskPositions (tasks : List GanttTask) (dateRange : DateRange)
    (chartWidth : ℚ) (_config : GanttConfig) (collapsedIds : List String) :
    List ComputedTask :=
  computeTaskPositionsGo dateRange chartWidth collapsedIds 0
    (flattenTasks tasks collapsedIds)

/-- Source `calculateDateRange` loop body (`tasks.forEach`): fold the
running `(minDate, maxDate)` pair over one task, current dates first,
then the baseline dates when present. -/
def dateRangeFold (acc : ℤ × ℤ) (task : GanttTask) : ℤ × ℤ :=
  let minDate := if task.start < acc.1 then task.start else acc.1
  let maxDate := if acc.2 < task.«end» then task.«end» else acc.2
  let minDate := match task.baselineStart with
    | some bs => if bs < minDate then bs else minDate
    | none => minDate
  let maxDate := match task.baselineEnd with
    | some be => if maxDate < be then be else maxDate
    | none => maxDate
  (minDate, maxDate)

/-- Source `calculateDateRange` (`src/utils/date.ts`).  `now` models the
impure `new Date()` read in the empty-tasks branch; the source default
`padding = 7` is passed explicitly by callers of the model. -/
def calculateDateRange (tasks : List GanttTask) (padding : ℤ)
    (customRange : Option (ℤ × ℤ)) (now : ℤ) : DateRange :=
  match customRange with
  | some cr =>
    let s := startOfDay cr.1
    let e := endOfDay cr.2
    { start := s, «end» := e, totalDays := ⌈diffInDays s e⌉ }
  | none =>
    match tasks with
    | [] =>
      let s := startOfDay (addDays now (-(padding : ℚ)))
      let e := endOfDay (addDays now (padding : ℚ))
      { start := s, «end» := e, totalDays := padding * 2 }
    | t0 :: rest =>
      let mm := (t0 :: rest).foldl dateRangeFold (t0.start, t0.«end»)
      let s := startOfDay (addDays mm.1 (-(padding : ℚ)))
      let e := endOfDay (addDays mm.2 (padding : ℚ))
      { start := s, «end» := e, totalDays := ⌈diffInDays s e⌉ }

/-- Source `DragMode`, without the `null` member (`Option DragMode`
models the nullable type). -/
inductive DragMode where
  | move
  | resizeLeft
  | resizeRight
deriving DecidableEq, Repr

/-- Source `DragState` (`src/hooks/useDrag.ts`): the gesture record
captured at pointer-down. -/
structure DragState where
  task : ComputedTask
  mode : Option DragMode
  startX : ℚ
  startTaskX : ℚ
  startTaskWidth : ℚ
  originalStart : ℤ
  originalEnd : ℤ
deriving DecidableEq, Repr

/-- The callbacks the hook fires (`onDragStart` / `onDragMove` /
`onDragEnd`), reified so a handler's effect is observable. -/
inductive DragCallback where
  | dragStart (task : ComputedTask)
  | dragMove (task : ComputedTask) (newStart newEnd : ℤ)
  | dragEnd (task : ComputedTask) (newStart newEnd : ℤ) (cancelled isResize : Bool)
deriving DecidableEq, Repr

/-- The hook's mutable region: `isDragging` (React state), the preview
dates (kept in duplicate as state and refs, always written together —
modelled once), and `dragState.current`. -/
structure ControllerState where
  isDragging : Bool := false
  previewStart : Option ℤ := none
  previewEnd : Option ℤ := none
  session : Option DragState := none
deriving DecidableEq, Repr

/-- Is the recorded mode a resize
(`state.mode === 'resize-left' || state.mode === 'resize-right'`)? -/
def isResizeMode : Option DragMode → Bool
  | some .resizeLeft => true
  | some .resizeRight => true
  | _ => false

/-- Source `handleMouseDown` (`src/hooks/useDrag.ts`): reject disabled
tasks, null modes and modes whose capability is off; otherwise record the
session, publish the original dates as the preview and fire
`onDragStart`. -/
def handleMouseDown (cfg : GanttConfig) (st : ControllerState)
    (task : ComputedTask) (clientX : ℚ) (mode : Option DragMode) :
    ControllerState × List DragCallback :=
  if task.task.isDisabled then (st, [])
  else
    match mode with
    | none => (st, [])
    | some m =>
      if m == .move && !cfg.allowDrag then (st, [])
      else if (m == .resizeLeft || m == .resizeRight) && !cfg.allowResize then (st, [])
      else
        let s : DragState :=
          { task := task, mode := some m, startX := clientX,
            startTaskX := task.x, startTaskWidth := task.width,
            originalStart := task.task.start, originalEnd := task.task.«end» }
        ({ isDragging := true, previewStart := some task.task.start,
           previewEnd := some task.task.«end», session := some s },
         [.dragStart task])

/-- Source `handleTaskDragStart` (`src/components/Gantt.tsx`): the entry
point the task bar calls; groups and disabled tasks are filtered here
before `useDrag`'s own `handleMouseDown` runs. -/
def handleTaskDragStart (cfg : GanttConfig) (st : ControllerState)
    (task : ComputedTask) (clientX : ℚ) (mode : DragMode) :
    ControllerState × List DragCallback :=
  if task.task.isDisabled || task.task.type == .group then (st, [])
  else handleMouseDown cfg st task clientX (some mode)

/-- Source `handleMouseMove` date computation (`src/hooks/useDrag.ts`):
from the live pointer delta, compute the candidate `(newStart, newEnd)`
for the session's mode, clamp resizes to one day minimum, and normalize
both dates to start of day.  `none` models the `default: return` branch
(null mode). -/
def handleMouseMoveDates (dateRange : DateRange) (chartWidth : ℚ)
    (viewMode : ViewMode) (state : DragState) (clientX : ℚ) : Option (ℤ × ℤ) :=
  let deltaX := clientX - state.startX
  match state.mode with
  | some .move =>
    let newX := state.startTaskX + deltaX
    let snappedX := snapToGrid newX dateRange chartWidth viewMode
    let newStart := xToDate snappedX dateRange chartWidth
    let duration := diffInDays state.originalStart state.originalEnd
    let newEnd := addDays newStart duration
    some (startOfDay newStart, startOfDay newEnd)
  | some .resizeLeft =>
    let newX := state.startTaskX + deltaX
    let snappedX := snapToGrid newX dateRange chartWidth viewMode
    let newStart0 := xToDate snappedX dateRange chartWidth
    let newEnd := state.originalEnd
    let newStart := if newEnd ≤ newStart0 then addDays newEnd (-1) else newStart0
    some (startOfDay newStart, startOfDay newEnd)
  | some .resizeRight =>
    let newWidth := state.startTaskWidth + deltaX
    let newEndX := state.startTaskX + newWidth
    let snappedEndX := snapToGrid newEndX dateRange chartWidth viewMode
    let newStart := state.originalStart
    let newEnd0 := xToDate snappedEndX dateRange chartWidth
    let newEnd := if newEnd0 ≤ newStart then addDays newStart 1 else newEnd0
    some (startOfDay newStart, startOfDay newEnd)
  | none => none

/-- Source `handleMouseMove` effect: guard on an active drag (the
listener only exists while `isDragging`), update the preview, fire
`onDragMove`. -/
def handleMouseMove (dateRange : DateRange) (chartWidth : ℚ) (viewMode : ViewMode)
    (st : ControllerState) (clientX : ℚ) : ControllerState × List DragCallback :=
  if !st.isDragging then (st, [])
  else
    match st.session with
    | none => (st, [])
    | some state =>
      match handleMouseMoveDates dateRange chartWidth viewMode state clientX with
      | none => (st, [])
      | some (newStart, newEnd) =>
        ({ st with previewStart := some newStart, previewEnd := some newEnd },
         [.dragMove state.task newStart newEnd])

/-- Source `handleMouseUp`: report the latest preview (falling back to
the originals when no move happened — `Date` objects are always truthy,
so `||` is exactly `Option.getD`), with `cancelled = !moved`, then clear
the session. -/
def handleMouseUp (st : ControllerState) : ControllerState × List DragCallback :=
  if !st.isDragging then (st, [])
  else
    match st.session with
    | none => (st, [])
    | some state =>
      let moved :=
        match st.previewStart, st.previewEnd with
        | some ps, some pe =>
          (ps != state.originalStart) || (pe != state.originalEnd)
        | _, _ => false
      ({ isDragging := false, previewStart := none, previewEnd := none,
         session := none },
       [.dragEnd state.task (st.previewStart.getD state.originalStart)
          (st.previewEnd.getD state.originalEnd) (!moved)
          (isResizeMode state.mode)])

/-- Source `handleKeyDown`: on Escape during an active drag, abort,
reporting the original dates with `cancelled = true`, and clear the
session. -/
def handleKeyDown (st : ControllerState) (key : String) :
    ControllerState × List DragCallback :=
  if !st.isDragging then (st, [])
  else if key == "Escape" then
    match st.session with
    | none => (st, [])
    | some state =>
      ({ isDragging := false, previewStart := none, previewEnd := none,
         session := none },
       [.dragEnd state.task state.originalStart state.originalEnd true
          (isResizeMode state.mode)])
  else (st, [])

/-- Parent step of the ancestor relation: `p` is a parent of `t` when `p`
belongs to the collection and `t`'s parent reference carries `p`'s id. -/
def ParentOf (tasks : List GanttTask) (p t : GanttTask) : Prop :=
  p ∈ tasks ∧ t.parentId = some p.id

/-- `a` is an ancestor of `t`: one or more parent steps. -/
def IsAncestorOf (tasks : List GanttTask) (a t : GanttTask) : Prop :=
  Relation.TransGen (ParentOf tasks) a t

/-- The instants competing for the range minimum contributed by one task:
its start and, when present, its baseline start (spec: "the minimum …
spanning all tasks' current AND baseline dates"). -/
def taskMinCandidates (t : GanttTask) : List ℤ :=
  t.start :: t.baselineStart.toList

/-- The instants competing for the range maximum contributed by one task:
its end and, when present, its baseline end. -/
def taskMaxCandidates (t : GanttTask) : List ℤ :=
  t.«end» :: t.baselineEnd.toList

/-! Concrete sample data used by witnesses and counterexamples.
`exRange` is a ten-day range starting at the epoch. -/

/-- A ten-day range starting at epoch 0 (concrete test range). -/
def exRange : DateRange := { start := 0, «end» := 864000000, totalDays := 10 }

/-- A task carrying baseline dates (day 1 to day 2). -/
def exTaskBase : GanttTask :=
  { id := "T", name := "T", type := .task, start := 172800000,
    «end» := 345600000, progress := 50, baselineStart := some 86400000,
    baselineEnd := some 172800000 }

/-- Root group of the three-level sample hierarchy (spec scenario C). -/
def exTaskA : GanttTask :=
  { id := "A", name := "A", type := .group, start := 0, «end» := 864000000,
    progress := 0 }

/-- Child of `exTaskA`. -/
def exTaskB : GanttTask :=
  { id := "B", name := "B", type := .task, start := 0, «end» := 86400000,
    progress := 0, parentId := some "A" }

/-- Child of `exTaskB`. -/
def exTaskC : GanttTask :=
  { id := "C", name := "C", type := .task, start := 0, «end» := 86400000,
    progress := 0, parentId := some "B" }

/-- The three-level hierarchy A → B → C of spec scenario C. -/
def exTasksABC : List GanttTask := [exTaskA, exTaskB, exTaskC]

/-- A task whose id is the empty string. -/
def exTaskBlank : GanttTask :=
  { id := "", name := "blank", type := .group, start := 0, «end» := 864000000,
    progress := 0 }

/-- A task whose parent reference is the empty-string id: JS truthiness
(`!t.parentId`) promotes it to a root even though its parent exists. -/
def exTaskR : GanttTask :=
  { id := "R", name := "R", type := .task, start := 0, «end» := 86400000,
    progress := 0, parentId := some "" }

/-- The two-task list exhibiting the empty-string-id pathology. -/
def exTasksBlank : List GanttTask := [exTaskBlank, exTaskR]

/-- Spec scenario B in concrete numbers: current schedule days 9–19,
baseline days 0–4 (epoch milliseconds). -/
def exTaskScenB : GanttTask :=
  { id := "S", name := "S", type := .task, start := 777600000,
    «end» := 1641600000, progress := 0, baselineStart := some 0,
    baselineEnd := some 345600000 }

/-- A concrete computed task used as the payload of drag sessions. -/
def exCt : ComputedTask :=
  { task := exTaskBase, x := 55, width := 10, rowIndex := 0,
    baselineX := none, baselineWidth := none, level := 0,
    isCollapsed := false, isVisible := true }

/-- Move session: snapped candidate start at day 2, original schedule
spanning one and a half days (0 to 129600000 ms). -/
def exDragMove : DragState :=
  { task := exCt, mode := some .move, startX := 0, startTaskX := 20,
    startTaskWidth := 15, originalStart := 0, originalEnd := 129600000 }

/-- Move session whose original schedule is exactly two whole days. -/
def exDragMoveAligned : DragState :=
  { task := exCt, mode := some .move, startX := 0, startTaskX := 20,
    startTaskWidth := 15, originalStart := 0, originalEnd := 172800000 }

/-- Resize-left session whose current end lies mid-day (day 5.5). -/
def exDragResizeLeft : DragState :=
  { task := exCt, mode := some .resizeLeft, startX := 0, startTaskX := 55,
    startTaskWidth := 10, originalStart := 0, originalEnd := 475200000 }

/-- Resize-left session with a day-aligned current end (day 2) and the
pointer far to the right (candidate start day 5 ≥ end). -/
def exDragResizeLeftClamp : DragState :=
  { task := exCt, mode := some .resizeLeft, startX := 0, startTaskX := 55,
    startTaskWidth := 10, originalStart := 0, originalEnd := 172800000 }

/-- A controller mid-drag, with previews that differ from the session's
original dates (produced by intervening pointer-moves). -/
def exControllerDragging : ControllerState :=
  { isDragging := true, previewStart := some 999, previewEnd := some 1999,
    session := some exDragMove }

end Gantt

namespace Gantt

theorem ratTrunc_intCast (n : ℤ) : ratTrunc (n : ℚ) = n := by
  unfold ratTrunc
  split <;> simp

theorem msPerDay_pos : (0 : ℤ) < msPerDay := by decide

theorem startOfDay_eq_ediv (t : ℤ) : startOfDay t = msPerDay * (t / msPerDay) := by
  unfold startOfDay
  rw [Int.fdiv_eq_ediv t (by decide : (0 : ℤ) ≤ msPerDay)]

theorem startOfDay_add_mul (t k : ℤ) :
    startOfDay (t + k * msPerDay) = startOfDay t + k * msPerDay := by
  rw [startOfDay_eq_ediv, startOfDay_eq_ediv,
    Int.add_mul_ediv_right t k (by decide : msPerDay ≠ 0)]
  ring

theorem startOfDay_idem (t : ℤ) : startOfDay (startOfDay t) = startOfDay t := by
  rw [startOfDay_eq_ediv t, startOfDay_eq_ediv,
    Int.mul_ediv_cancel_left _ (by decide : msPerDay ≠ 0)]

theorem startOfDay_le (t : ℤ) : startOfDay t ≤ t := by
  rw [startOfDay_eq_ediv]
  have h1 := Int.emod_nonneg t (show msPerDay ≠ 0 by decide)
  have h2 := Int.ediv_add_emod t msPerDay
  omega

theorem startOfDay_mono {s t : ℤ} (h : s ≤ t) : startOfDay s ≤ startOfDay t := by
  rw [startOfDay_eq_ediv, startOfDay_eq_ediv]
  have : s / msPerDay ≤ t / msPerDay := Int.ediv_le_ediv (by decide) h
  exact mul_le_mul_of_nonneg_left this (by decide)

/-- A day-aligned instant is a fixed point of `startOfDay`. -/
theorem startOfDay_eq_self_iff (t : ℤ) : startOfDay t = t ↔ msPerDay ∣ t := by
  rw [startOfDay_eq_ediv]
  constructor
  · intro h
    exact ⟨t / msPerDay, h.symm⟩
  · rintro ⟨c, rfl⟩
    rw [Int.mul_ediv_cancel_left _ (by decide : msPerDay ≠ 0)]

/-- Core round-trip: `xToDate` undoes `dateToX` exactly, for any integer
date, once the range is nondegenerate and the width nonzero. -/
theorem xToDate_dateToX (d : ℤ) (r : DateRange) (w : ℚ)
    (hr : r.start < r.«end») (hw : w ≠ 0) :
    xToDate (dateToX d r w) r w = d := by
  have hT : ((r.«end» : ℚ) - (r.start : ℚ)) ≠ 0 := by
    have : (r.start : ℚ) < (r.«end» : ℚ) := by exact_mod_cast hr
    exact sub_ne_zero.mpr this.ne'
  unfold xToDate
  have hval : (r.start : ℚ)
      + dateToX d r w / w * ((r.«end» - r.start : ℤ) : ℚ) = ((d : ℤ) : ℚ) := by
    unfold dateToX
    push_cast
    field_simp
    ring
  rw [hval, ratTrunc_intCast]

/-- `snapToGrid` truncates to the day boundary in every view mode. -/
theorem snapToGrid_eq (x : ℚ) (r : DateRange) (w : ℚ) (vm : ViewMode) :
    snapToGrid x r w vm = dateToX (startOfDay (xToDate x r w)) r w := by
  cases vm <;> rfl

/-- C1: For every date range with `range.start < range.end`, every chart
width `w > 0`, and every date `d` in `[range.start, range.end]`,
`xToDate(dateToX(d, range, w), range, w) = d` exactly (the model's
rational arithmetic is the claim's "real arithmetic"; the `Date`
constructor's truncation is modelled and is the identity here). -/
theorem C1_dateToX_xToDate_roundTrip (d : ℤ) (r : DateRange) (w : ℚ)
    (hr : r.start < r.«end») (hw : 0 < w)
    (hd1 : r.start ≤ d) (hd2 : d ≤ r.«end») :
    xToDate (dateToX d r w) r w = d :=
  xToDate_dateToX d r w hr hw.ne'

/-- Witness for C1: a 10-day range, 400px wide, round-trips day 1. -/
theorem C1_dateToX_xToDate_roundTrip_witness :
    ((0 : ℤ) < 864000000 ∧ (0 : ℚ) < 400 ∧ (0 : ℤ) ≤ 86400000 ∧
        (86400000 : ℤ) ≤ 864000000) ∧
      xToDate (dateToX 86400000 ⟨0, 864000000, 10⟩ 400) ⟨0, 864000000, 10⟩ 400
        = 86400000 :=
  ⟨⟨by decide, by norm_num, by decide, by decide⟩,
    C1_dateToX_xToDate_roundTrip 86400000 ⟨0, 864000000, 10⟩ 400
      (by decide) (by norm_num) (by decide) (by decide)⟩

/-- C10: `snapToGrid` is idempotent (exactly, in the rational model):
snapping maps `x` to the pixel of a day-start date, the round-trip
recovers that date exactly, and day-start truncation fixes it. -/
theorem C10_snapToGrid_idempotent (x : ℚ) (r : DateRange) (w : ℚ)
    (vm : ViewMode) (hr : r.start < r.«end») (hw : 0 < w) :
    snapToGrid (snapToGrid x r w vm) r w vm = snapToGrid x r w vm := by
  rw [snapToGrid_eq x r w vm, snapToGrid_eq _ r w vm,
    xToDate_dateToX _ r w hr hw.ne', startOfDay_idem]

/-- Witness for C10: snapping a mid-day pixel twice equals snapping once
on a concrete 10-day, 400px chart. -/
theorem C10_snapToGrid_idempotent_witness :
    ((0 : ℤ) < 864000000 ∧ (0 : ℚ) < 400) ∧
      snapToGrid (snapToGrid 61 ⟨0, 864000000, 10⟩ 400 .day) ⟨0, 864000000, 10⟩ 400 .day
        = snapToGrid 61 ⟨0, 864000000, 10⟩ 400 .day :=
  ⟨⟨by decide, by norm_num⟩,
    C10_snapToGrid_idempotent 61 ⟨0, 864000000, 10⟩ 400 .day (by decide) (by norm_num)⟩

theorem computeTaskPositionsGo_shape (r : DateRange) (w : ℚ) (c : List String) :
    ∀ (l : List FlatEntry) (n : ℕ) (ct : ComputedTask),
      ct ∈ computeTaskPositionsGo r w c n l →
      ∃ fe ∈ l, ct.task = fe.task ∧ ct.isVisible = fe.isVisible ∧
        ct.baselineX = (match fe.task.baselineStart, fe.task.baselineEnd with
          | some bs, some _ => some (dateToX bs r w)
          | _, _ => none) ∧
        ct.baselineWidth = (match fe.task.baselineStart, fe.task.baselineEnd with
          | some bs, some be => some (calculateBarWidth bs be r w 4)
          | _, _ => none) := by
  intro l
  induction l with
  | nil => intro n ct h; simp [computeTaskPositionsGo] at h
  | cons fe rest ih =>
    intro n ct h
    rw [computeTaskPositionsGo] at h
    rcases List.mem_cons.mp h with rfl | hmem
    · exact ⟨fe, List.mem_cons_self fe rest, rfl, rfl, rfl, rfl⟩
    · obtain ⟨fe', hfe', hrest⟩ := ih _ _ hmem
      exact ⟨fe', List.mem_cons_of_mem fe hfe', hrest⟩

/-- C2: every output of the position compiler has baseline geometry
present exactly when both baseline dates are present, and in that case it
is computed by the same `dateToX` / `calculateBarWidth` transform as the
current bar. -/
theorem C2_baseline_identical_transform (tasks : List GanttTask) (r : DateRange)
    (w : ℚ) (cfg : GanttConfig) (c : List String) (ct : ComputedTask)
    (hct : ct ∈ computeTaskPositions tasks r w cfg c) :
    ((ct.baselineX.isSome ∧ ct.baselineWidth.isSome) ↔
        (ct.task.baselineStart.isSome ∧ ct.task.baselineEnd.isSome)) ∧
      (∀ bs be, ct.task.baselineStart = some bs → ct.task.baselineEnd = some be →
        ct.baselineX = some (dateToX bs r w) ∧
          ct.baselineWidth = some (calculateBarWidth bs be r w 4)) := by
  obtain ⟨fe, _, htask, _, hbx, hbw⟩ :=
    computeTaskPositionsGo_shape r w c _ 0 ct hct
  rcases hbs : fe.task.baselineStart with _ | bs <;>
    rcases hbe : fe.task.baselineEnd with _ | be <;>
      simp [htask, hbs, hbe, hbx, hbw]

/-- Witness for C2: in the one-task chart of `exTaskBase`, the compiled
entry's baseline geometry is produced by `dateToX`/`calculateBarWidth`
on the baseline dates. -/
theorem C2_baseline_identical_transform_witness :
    ((computeTaskPositions [exTaskBase] exRange 400 {} []).get
        ⟨0, by decide⟩).baselineX = some (dateToX 86400000 exRange 400) ∧
      ((computeTaskPositions [exTaskBase] exRange 400 {} []).get
        ⟨0, by decide⟩).baselineWidth
        = some (calculateBarWidth 86400000 172800000 exRange 400 4) :=
  (C2_baseline_identical_transform [exTaskBase] exRange 400 {} [] _
      (List.get_mem _ _ _)).2 86400000 172800000 (by decide) (by decide)

theorem computeTaskPositionsGo_rowIndex (r : DateRange) (w : ℚ) (c : List String) :
    ∀ (l : List FlatEntry) (n : ℕ),
      (∀ ct ∈ computeTaskPositionsGo r w c n l,
          ct.isVisible = false → ct.rowIndex = -1) ∧
        ((computeTaskPositionsGo r w c n l).filter (fun ct => ct.isVisible)).map
            (fun ct => ct.rowIndex)
          = (List.range' n (l.countP (fun fe => fe.isVisible))).map
              (fun k : ℕ => (k : ℤ)) := by
  intro l
  induction l with
  | nil =>
    intro n
    refine ⟨fun ct h => ?_, ?_⟩
    · simp [computeTaskPositionsGo] at h
    · simp [computeTaskPositionsGo]
  | cons fe rest ih =>
    intro n
    refine ⟨fun ct h hvis => ?_, ?_⟩
    · rw [computeTaskPositionsGo] at h
      rcases List.mem_cons.mp h with rfl | hmem
      · simp only at hvis ⊢
        simp [hvis]
      · exact ((ih _).1) ct hmem hvis
    · rw [computeTaskPositionsGo]
      rcases hv : fe.isVisible with _ | _
      · simp only [List.filter_cons, List.countP_cons, hv]
        simpa using (ih n).2
      · simp only [List.filter_cons, List.countP_cons, hv]
        simpa [List.range'_succ] using (ih (n + 1)).2

/-- C4: in the compiler's output, every hidden entry has the sentinel row
index `-1`, and the visible entries receive row indices `0, 1, 2, …`
consecutively in flattened order. -/
theorem C4_row_index_assignment (tasks : List GanttTask) (r : DateRange)
    (w : ℚ) (cfg : GanttConfig) (c : List String) :
    (∀ ct ∈ computeTaskPositions tasks r w cfg c,
        ct.isVisible = false → ct.rowIndex = -1) ∧
      ((computeTaskPositions tasks r w cfg c).filter (fun ct => ct.isVisible)).map
          (fun ct => ct.rowIndex)
        = (List.range
              (((computeTaskPositions tasks r w cfg c).filter
                  (fun ct => ct.isVisible)).length)).map (fun k : ℕ => (k : ℤ)) := by
  have h := computeTaskPositionsGo_rowIndex r w c (flattenTasks tasks c) 0
  refine ⟨h.1, ?_⟩
  have hlen : ((computeTaskPositionsGo r w c 0 (flattenTasks tasks c)).filter
      (fun ct => ct.isVisible)).length
      = (flattenTasks tasks c).countP (fun fe => fe.isVisible) := by
    have h2 := congrArg List.length h.2
    simp only [List.length_map, List.length_range'] at h2
    exact h2
  rw [computeTaskPositions, hlen, List.range_eq_range']
  exact h.2

/-- Witness for C4: collapsing A in the A → B → C hierarchy leaves a
single visible row (index 0) and gives the hidden second entry the
sentinel row index −1. -/
theorem C4_row_index_assignment_witness :
    ((computeTaskPositions exTasksABC exRange 400 {} ["A"]).filter
        (fun ct => ct.isVisible)).map (fun ct => ct.rowIndex) = [0] ∧
      ((computeTaskPositions exTasksABC exRange 400 {} ["A"]).get
        ⟨1, by decide⟩).rowIndex = -1 :=
  ⟨(C4_row_index_assignment exTasksABC exRange 400 {} ["A"]).2.trans (by decide),
    (C4_row_index_assignment exTasksABC exRange 400 {} ["A"]).1 _
      (List.get_mem _ _ _) (by decide)⟩

theorem mem_childrenOf {tasks : List GanttTask} {id : String} {t : GanttTask} :
    t ∈ childrenOf tasks id ↔ t ∈ tasks ∧ t.parentId = some id := by
  simp [childrenOf]

theorem mem_of_mem_rootTasks {tasks : List GanttTask} {t : GanttTask}
    (h : t ∈ rootTasks tasks) : t ∈ tasks :=
  (List.mem_filter.mp h).1

/-- A root (in the source's sense) has no parent step into it, as long as
no task carries the empty-string id. -/
theorem rootTasks_no_parent {tasks : List GanttTask} {t : GanttTask}
    (h : t ∈ rootTasks tasks) (hids : ∀ u ∈ tasks, u.id ≠ "") :
    ∀ p, ¬ ParentOf tasks p t := by
  rintro p ⟨hp, hpid⟩
  have hf := (List.mem_filter.mp h).2
  rw [hpid] at hf
  simp only [Bool.or_eq_true, beq_iff_eq, Bool.not_eq_true'] at hf
  rcases hf with hf | hf
  · exact hids p hp hf
  · rw [List.any_eq_false] at hf
    have hcontra := hf p hp
    simp at hcontra

theorem addTask_visible_parentVisible (tasks : List GanttTask) (c : List String) :
    ∀ (fuel : ℕ) (t : GanttTask) (lvl : ℕ) (pv : Bool) (e : FlatEntry),
      e ∈ addTask tasks c fuel t lvl pv → e.isVisible = true → pv = true := by
  intro fuel
  induction fuel with
  | zero => intro t lvl pv e h; simp [addTask] at h
  | succ fuel ih =>
    intro t lvl pv e h hv
    simp only [addTask, List.mem_cons, List.mem_flatMap] at h
    rcases h with rfl | ⟨child, _, hmem⟩
    · exact hv
    · have hpv := ih child (lvl + 1) _ e hmem hv
      rw [Bool.and_eq_true] at hpv
      exact hpv.1

theorem addTask_reaches (tasks : List GanttTask) (c : List String) :
    ∀ (fuel : ℕ) (t : GanttTask) (lvl : ℕ) (pv : Bool) (e : FlatEntry),
      t ∈ tasks → e ∈ addTask tasks c fuel t lvl pv →
      Relation.ReflTransGen (ParentOf tasks) t e.task := by
  intro fuel
  induction fuel with
  | zero => intro t lvl pv e _ h; simp [addTask] at h
  | succ fuel ih =>
    intro t lvl pv e ht h
    simp only [addTask, List.mem_cons, List.mem_flatMap] at h
    rcases h with rfl | ⟨child, hchild, hmem⟩
    · exact Relation.ReflTransGen.refl
    · obtain ⟨hcmem, hcpid⟩ := mem_childrenOf.mp hchild
      exact Relation.ReflTransGen.head ⟨ht, hcpid⟩ (ih child (lvl + 1) _ e hcmem hmem)

theorem addTask_visible_of_no_collapsed (tasks : List GanttTask) (c : List String) :
    ∀ (fuel : ℕ) (t : GanttTask) (lvl : ℕ) (pv : Bool) (e : FlatEntry),
      t ∈ tasks → e ∈ addTask tasks c fuel t lvl pv → pv = true →
      (∀ a, IsAncestorOf tasks a e.task → a.id ∉ c) →
      e.isVisible = true := by
  intro fuel
  induction fuel with
  | zero => intro t lvl pv e _ h; simp [addTask] at h
  | succ fuel ih =>
    intro t lvl pv e ht h hpv hanc
    simp only [addTask, List.mem_cons, List.mem_flatMap] at h
    rcases h with rfl | ⟨child, hchild, hmem⟩
    · exact hpv
    · obtain ⟨hcmem, hcpid⟩ := mem_childrenOf.mp hchild
      have htanc : IsAncestorOf tasks t e.task :=
        Relation.TransGen.head' ⟨ht, hcpid⟩
          (addTask_reaches tasks c fuel child (lvl + 1) _ e hcmem hmem)
      have hnotin : t.id ∉ c := hanc t htanc
      have hpv' : (pv && !(c.contains t.id)) = true := by
        simp [hpv, hnotin]
      exact ih child (lvl + 1) _ e hcmem hmem hpv' hanc

theorem addTask_no_collapsed_of_visible (tasks : List GanttTask) (c : List String)
    (hnodup : (tasks.map GanttTask.id).Nodup) :
    ∀ (fuel : ℕ) (t : GanttTask) (lvl : ℕ) (pv : Bool) (e : FlatEntry),
      t ∈ tasks → e ∈ addTask tasks c fuel t lvl pv → e.isVisible = true →
      (∀ a, IsAncestorOf tasks a t → a.id ∉ c) →
      ∀ a, IsAncestorOf tasks a e.task → a.id ∉ c := by
  intro fuel
  induction fuel with
  | zero => intro t lvl pv e _ h; simp [addTask] at h
  | succ fuel ih =>
    intro t lvl pv e ht h hv hanc
    simp only [addTask, List.mem_cons, List.mem_flatMap] at h
    rcases h with rfl | ⟨child, hchild, hmem⟩
    · exact hanc
    · obtain ⟨hcmem, hcpid⟩ := mem_childrenOf.mp hchild
      have hpv' := addTask_visible_parentVisible tasks c fuel child (lvl + 1) _ e hmem hv
      have htnotin : t.id ∉ c := by
        rw [Bool.and_eq_true] at hpv'
        have h2 := hpv'.2
        simp only [Bool.not_eq_true', List.contains_eq_any_beq, List.any_eq_false,
          beq_iff_eq] at h2
        intro hmemc
        exact h2 t.id hmemc rfl
      refine ih child (lvl + 1) _ e hcmem hmem hv ?_
      intro a ha
      obtain ⟨b, hab, hbmem, hbpid⟩ :
          ∃ b, Relation.ReflTransGen (ParentOf tasks) a b ∧ b ∈ tasks ∧
            child.parentId = some b.id := by
        obtain ⟨b, hab, hb⟩ := Relation.TransGen.tail'_iff.mp ha
        exact ⟨b, hab, hb.1, hb.2⟩
      have hbid : b.id = t.id := by
        rw [hcpid] at hbpid
        exact (Option.some_injective _ hbpid).symm
      have hbt : b = t :=
        (List.nodup_map_iff_inj_on (hnodup.of_map _)).mp hnodup b hbmem t ht hbid
      subst hbt
      rcases Relation.reflTransGen_iff_eq_or_transGen.mp hab with rfl | htg
      · exact htnotin
      · exact hanc a htg

/-- Roots carry no ancestors at all (when ids are nonempty). -/
theorem rootTasks_no_ancestor {tasks : List GanttTask} {t : GanttTask}
    (h : t ∈ rootTasks tasks) (hids : ∀ u ∈ tasks, u.id ≠ "") :
    ∀ a, ¬ IsAncestorOf tasks a t := by
  intro a ha
  obtain ⟨b, _, hb⟩ := Relation.TransGen.tail'_iff.mp ha
  exact rootTasks_no_parent h hids b hb

/-- C3 (amended): for a task list with unique, nonempty ids (uniqueness
is the data model's standing invariant; nonemptiness is forced by the
counterexample below) and any collapsed-id set, a flattened entry is
marked visible exactly when none of its ancestors is collapsed — in
particular every entry whose task has a collapsed ancestor is marked
invisible, roots are visible, and a collapsed node itself stays visible. -/
theorem C3_visibility_iff_no_collapsed_ancestor (tasks : List GanttTask)
    (c : List String) (hnodup : (tasks.map GanttTask.id).Nodup)
    (hids : ∀ u ∈ tasks, u.id ≠ "") (e : FlatEntry)
    (he : e ∈ flattenTasks tasks c) :
    e.isVisible = true ↔ ∀ a, IsAncestorOf tasks a e.task → a.id ∉ c := by
  simp only [flattenTasks, List.mem_flatMap] at he
  obtain ⟨root, hroot, hmem⟩ := he
  have hrootmem : root ∈ tasks := mem_of_mem_rootTasks hroot
  have hrootanc : ∀ a, IsAncestorOf tasks a root → a.id ∉ c := fun a ha =>
    absurd ha (rootTasks_no_ancestor hroot hids a)
  constructor
  · intro hv
    exact addTask_no_collapsed_of_visible tasks c hnodup _ root 0 true e
      hrootmem hmem hv hrootanc
  · intro hno
    exact addTask_visible_of_no_collapsed tasks c _ root 0 true e
      hrootmem hmem rfl hno

/-- C3 counterexample: the claim as stated (for every task list with
acyclic parent references, every task with a collapsed ancestor is marked
invisible) fails on the code.  In `exTasksBlank` — ids unique, parent
references acyclic — the task `exTaskR` has the collapsed task
`exTaskBlank` as ancestor (`R.parentId = ""` and `exTaskBlank.id = ""`),
yet JS truthiness (`!t.parentId` is true for the empty string) also
promotes `R` to a root, so the flattener emits a *visible* entry for `R`
(its third entry), violating both the implication and the
"exactly when" characterization. -/
theorem C3_counterexample :
    (¬ IsAncestorOf exTasksBlank exTaskBlank exTaskBlank) ∧
      (¬ IsAncestorOf exTasksBlank exTaskR exTaskR) ∧
      IsAncestorOf exTasksBlank exTaskBlank exTaskR ∧
      exTaskBlank.id ∈ [""] ∧
      ((flattenTasks exTasksBlank [""]).get ⟨2, by decide⟩).task = exTaskR ∧
      ((flattenTasks exTasksBlank [""]).get ⟨2, by decide⟩).isVisible = true := by
  have hedge : ∀ p t, ParentOf exTasksBlank p t →
      (p = exTaskBlank ∧ t.parentId = some "") ∨
        (p = exTaskR ∧ t.parentId = some "R") := by
    rintro p t ⟨hp, hpid⟩
    simp only [exTasksBlank, List.mem_cons, List.not_mem_nil, or_false] at hp
    rcases hp with rfl | rfl
    · exact Or.inl ⟨rfl, hpid⟩
    · exact Or.inr ⟨rfl, hpid⟩
  have hnoparent_blank : ∀ p, ¬ ParentOf exTasksBlank p exTaskBlank := by
    intro p hp
    rcases hedge p _ hp with ⟨_, h⟩ | ⟨_, h⟩ <;> simp [exTaskBlank] at h
  have hnoanc_blank : ∀ a, ¬ IsAncestorOf exTasksBlank a exTaskBlank := by
    intro a ha
    obtain ⟨b, _, hb⟩ := Relation.TransGen.tail'_iff.mp ha
    exact hnoparent_blank b hb
  refine ⟨hnoanc_blank _, ?_, ?_, by decide, by decide, by decide⟩
  · intro ha
    obtain ⟨b, hRb, hbR⟩ := Relation.TransGen.tail'_iff.mp ha
    rcases hedge b _ hbR with ⟨rfl, _⟩ | ⟨rfl, h⟩
    · rcases Relation.reflTransGen_iff_eq_or_transGen.mp hRb with heq | htg
      · exact absurd heq (by decide)
      · exact hnoanc_blank _ htg
    · simp [exTaskR] at h
  · exact Relation.TransGen.single ⟨by decide, rfl⟩

/-- Witness for (amended) C3: in the A → B → C hierarchy with A
collapsed, B's flattened entry is marked invisible — obtained from the
visibility characterization at a concrete collapsed ancestor. -/
theorem C3_visibility_witness :
    ((flattenTasks exTasksABC ["A"]).get ⟨1, by decide⟩).isVisible = false := by
  have h := C3_visibility_iff_no_collapsed_ancestor exTasksABC ["A"]
    (by decide) (by decide)
    ((flattenTasks exTasksABC ["A"]).get ⟨1, by decide⟩) (List.get_mem _ 1 _)
  have htask : ((flattenTasks exTasksABC ["A"]).get ⟨1, by decide⟩).task
      = exTaskB := by decide
  rcases hv : ((flattenTasks exTasksABC ["A"]).get ⟨1, by decide⟩).isVisible with _ | _
  · rfl
  · exfalso
    have hall := h.mp hv
    have hanc : IsAncestorOf exTasksABC exTaskA
        (((flattenTasks exTasksABC ["A"]).get ⟨1, by decide⟩).task) := by
      rw [htask]
      exact Relation.TransGen.single ⟨by decide, rfl⟩
    exact hall exTaskA hanc (by decide)

theorem dateRangeFold_fst (a b : ℤ) (t : GanttTask) :
    (dateRangeFold (a, b) t).1 = (taskMinCandidates t).foldl min a := by
  unfold dateRangeFold taskMinCandidates
  rcases t.baselineStart with _ | bs <;>
    simp only [Option.toList, List.foldl_cons, List.foldl_nil] <;>
    · split <;> try split
      all_goals omega

theorem dateRangeFold_snd (a b : ℤ) (t : GanttTask) :
    (dateRangeFold (a, b) t).2 = (taskMaxCandidates t).foldl max b := by
  unfold dateRangeFold taskMaxCandidates
  rcases t.baselineEnd with _ | be <;>
    simp only [Option.toList, List.foldl_cons, List.foldl_nil] <;>
    · split <;> try split
      all_goals omega

theorem foldl_dateRangeFold (tasks : List GanttTask) :
    ∀ (a b : ℤ), tasks.foldl dateRangeFold (a, b)
      = ((tasks.flatMap taskMinCandidates).foldl min a,
         (tasks.flatMap taskMaxCandidates).foldl max b) := by
  induction tasks with
  | nil => intro a b; simp
  | cons t rest ih =>
    intro a b
    rw [List.foldl_cons,
      show dateRangeFold (a, b) t
        = ((dateRangeFold (a, b) t).1, (dateRangeFold (a, b) t).2) from rfl,
      ih, dateRangeFold_fst, dateRangeFold_snd,
      List.flatMap_cons, List.flatMap_cons, List.foldl_append, List.foldl_append]

theorem startOfDay_addDays_int (t k : ℤ) :
    startOfDay (addDays t (k : ℚ)) = addDays (startOfDay t) (k : ℚ) := by
  unfold addDays
  rw [Int.floor_intCast]
  exact startOfDay_add_mul t k

theorem endOfDay_addDays_int (t k : ℤ) :
    endOfDay (addDays t (k : ℚ)) = addDays (endOfDay t) (k : ℚ) := by
  unfold endOfDay
  rw [startOfDay_addDays_int]
  unfold addDays
  ring

/-- C5: with no custom range and a nonempty task list, the derived range
starts at start-of-day of the minimum over all tasks' starts and baseline
starts, minus `padding` days, and ends at end-of-day of the maximum over
all tasks' ends and baseline ends, plus `padding` days — baseline dates
participate exactly like current dates. -/
theorem C5_calculateDateRange_minmax (t0 : GanttTask) (rest : List GanttTask)
    (p : ℤ) (now : ℤ) (m M : ℤ)
    (hm : ((t0 :: rest).flatMap taskMinCandidates).min? = some m)
    (hM : ((t0 :: rest).flatMap taskMaxCandidates).max? = some M) :
    (calculateDateRange (t0 :: rest) p none now).start
        = addDays (startOfDay m) (-(p : ℚ))
      ∧ (calculateDateRange (t0 :: rest) p none now).«end»
        = addDays (endOfDay M) (p : ℚ) := by
  have hflat : (t0 :: rest).flatMap taskMinCandidates
      = t0.start :: (t0.baselineStart.toList ++ rest.flatMap taskMinCandidates) := by
    rw [List.flatMap_cons]; rfl
  have hflatM : (t0 :: rest).flatMap taskMaxCandidates
      = t0.«end» :: (t0.baselineEnd.toList ++ rest.flatMap taskMaxCandidates) := by
    rw [List.flatMap_cons]; rfl
  rw [hflat, List.min?_cons'] at hm
  rw [hflatM, List.max?_cons'] at hM
  have hm' : m = (t0.baselineStart.toList ++ rest.flatMap taskMinCandidates).foldl
      min t0.start := (Option.some_injective _ hm).symm
  have hM' : M = (t0.baselineEnd.toList ++ rest.flatMap taskMaxCandidates).foldl
      max t0.«end» := (Option.some_injective _ hM).symm
  have hmm := foldl_dateRangeFold (t0 :: rest) t0.start t0.«end»
  have hfold1 : ((t0 :: rest).foldl dateRangeFold (t0.start, t0.«end»)).1 = m := by
    rw [hmm, hm', hflat]
    simp [List.foldl_cons]
  have hfold2 : ((t0 :: rest).foldl dateRangeFold (t0.start, t0.«end»)).2 = M := by
    rw [hmm, hM', hflatM]
    simp [List.foldl_cons]
  constructor
  · show startOfDay (addDays ((t0 :: rest).foldl dateRangeFold
        (t0.start, t0.«end»)).1 (-(p : ℚ))) = _
    rw [hfold1, show (-(p : ℚ)) = ((-p : ℤ) : ℚ) by push_cast; ring,
      startOfDay_addDays_int]
  · show endOfDay (addDays ((t0 :: rest).foldl dateRangeFold
        (t0.start, t0.«end»)).2 (p : ℚ)) = _
    rw [hfold2, endOfDay_addDays_int]

/-- Witness for C5 (spec scenario B in concrete numbers): one task with
start day 9, end day 19, baseline days 0–4; with padding 7 the derived
range starts 7 days before day 0 (the baseline start), not before day 9. -/
theorem C5_calculateDateRange_minmax_witness :
    (calculateDateRange [exTaskScenB] 7 none 0).start
        = addDays (startOfDay 0) (-(7 : ℚ))
      ∧ (calculateDateRange [exTaskScenB] 7 none 0).«end»
        = addDays (endOfDay 1641600000) (7 : ℚ) :=
  C5_calculateDateRange_minmax exTaskScenB [] 7 0 0 1641600000
    (by decide) (by decide)

theorem addDays_intCast (t k : ℤ) : addDays t (k : ℚ) = t + k * msPerDay := by
  unfold addDays
  rw [Int.floor_intCast]

theorem addDays_neg_one (t : ℤ) : addDays t (-1) = t - msPerDay := by
  unfold addDays
  norm_num
  ring

theorem addDays_one (t : ℤ) : addDays t 1 = t + msPerDay := by
  unfold addDays
  norm_num

theorem startOfDay_dvd (t : ℤ) : msPerDay ∣ startOfDay t :=
  ⟨t.fdiv msPerDay, rfl⟩

/-- Day-aligned instants that are strictly ordered are at least one full
day apart. -/
theorem day_aligned_gap {a b : ℤ} (ha : msPerDay ∣ a) (hb : msPerDay ∣ b)
    (h : a < b) : a + msPerDay ≤ b := by
  obtain ⟨x, rfl⟩ := ha
  obtain ⟨y, rfl⟩ := hb
  have hxy : x < y := (mul_lt_mul_left msPerDay_pos).mp h
  have h1 : x + 1 ≤ y := hxy
  calc msPerDay * x + msPerDay = msPerDay * (x + 1) := by ring
    _ ≤ msPerDay * y := mul_le_mul_of_nonneg_left h1 (le_of_lt msPerDay_pos)

/-- The date recovered from a snapped pixel is the day-start of the date
at the unsnapped pixel — in particular it is day-aligned. -/
theorem xToDate_snapToGrid (x : ℚ) (r : DateRange) (w : ℚ) (vm : ViewMode)
    (hr : r.start < r.«end») (hw : w ≠ 0) :
    xToDate (snapToGrid x r w vm) r w = startOfDay (xToDate x r w) := by
  rw [snapToGrid_eq, xToDate_dateToX _ r w hr hw]

theorem handleMouseMoveDates_move (r : DateRange) (w : ℚ) (vm : ViewMode)
    (st : DragState) (clientX : ℚ) (hmode : st.mode = some .move) :
    handleMouseMoveDates r w vm st clientX =
      some (startOfDay (xToDate
          (snapToGrid (st.startTaskX + (clientX - st.startX)) r w vm) r w),
        startOfDay (addDays (xToDate
            (snapToGrid (st.startTaskX + (clientX - st.startX)) r w vm) r w)
          (diffInDays st.originalStart st.originalEnd))) := by
  unfold handleMouseMoveDates
  rw [hmode]

theorem handleMouseMoveDates_resizeLeft (r : DateRange) (w : ℚ) (vm : ViewMode)
    (st : DragState) (clientX : ℚ) (hmode : st.mode = some .resizeLeft) :
    handleMouseMoveDates r w vm st clientX =
      some (startOfDay (if st.originalEnd ≤ xToDate
            (snapToGrid (st.startTaskX + (clientX - st.startX)) r w vm) r w
          then addDays st.originalEnd (-1)
          else xToDate
            (snapToGrid (st.startTaskX + (clientX - st.startX)) r w vm) r w),
        startOfDay st.originalEnd) := by
  unfold handleMouseMoveDates
  rw [hmode]

theorem handleMouseMoveDates_resizeRight (r : DateRange) (w : ℚ) (vm : ViewMode)
    (st : DragState) (clientX : ℚ) (hmode : st.mode = some .resizeRight) :
    handleMouseMoveDates r w vm st clientX =
      some (startOfDay st.originalStart,
        startOfDay (if xToDate
            (snapToGrid (st.startTaskX + (st.startTaskWidth + (clientX - st.startX)))
              r w vm) r w ≤ st.originalStart
          then addDays st.originalStart 1
          else xToDate
            (snapToGrid (st.startTaskX + (st.startTaskWidth + (clientX - st.startX)))
              r w vm) r w)) := by
  unfold handleMouseMoveDates
  rw [hmode]

/-- C7 counterexample: the claim as stated (duration preserved exactly
for arbitrary, including non-day-aligned, original dates) fails on the
code.  With an original schedule of one and a half days (0 to
129600000 ms) and a snapped candidate start at day 2, the reported
preview is (day 2, day 3): `addDays` truncates the fractional day count
(`setDate` applies `ToIntegerOrInfinity`), so the reported duration is
1 day, not 1.5 days. -/
theorem C7_counterexample :
    handleMouseMoveDates exRange 100 .day exDragMove 0
        = some (172800000, 259200000) ∧
      (259200000 : ℤ) ≠ 172800000
        + (exDragMove.originalEnd - exDragMove.originalStart) := by
  refine ⟨?_, by decide⟩
  norm_num [handleMouseMoveDates, exDragMove, exRange, snapToGrid, xToDate, dateToX,
    startOfDay_eq_ediv, ratTrunc, msPerDay, addDays, diffInDays]

/-- C7 (amended): a move gesture reports `newEnd = newStart +
(originalEnd − originalStart)` — duration preserved exactly, after
day-start normalization of both reported dates — whenever the original
duration is a whole number of days (in particular whenever the task's
dates are day-aligned, the system's granularity); for fractional-day
originals the reported duration is the original truncated to whole days
(see the counterexample). -/
theorem C7_move_preserves_duration (r : DateRange) (w : ℚ) (vm : ViewMode)
    (st : DragState) (clientX : ℚ) (hr : r.start < r.«end») (hw : 0 < w)
    (hmode : st.mode = some .move)
    (hdur : msPerDay ∣ (st.originalEnd - st.originalStart)) :
    ∀ ns ne, handleMouseMoveDates r w vm st clientX = some (ns, ne) →
      ne = ns + (st.originalEnd - st.originalStart) := by
  intro ns ne h
  rw [handleMouseMoveDates_move r w vm st clientX hmode] at h
  obtain ⟨k, hk⟩ := hdur
  have hdiff : diffInDays st.originalStart st.originalEnd = (k : ℚ) := by
    unfold diffInDays
    rw [hk]
    push_cast
    rw [mul_comm]
    exact mul_div_cancel_right₀ _ (by norm_num [msPerDay])
  rw [hdiff, addDays_intCast] at h
  simp only [Option.some.injEq, Prod.mk.injEq] at h
  obtain ⟨hns, hne⟩ := h
  rw [← hns, ← hne, startOfDay_add_mul, hk]
  ring

/-- Witness for C7: moving a two-whole-day task to day 2 reports
(day 2, day 4), preserving the 2-day duration exactly. -/
theorem C7_move_preserves_duration_witness :
    handleMouseMoveDates exRange 100 .day exDragMoveAligned 0
        = some (172800000, 345600000) ∧
      (345600000 : ℤ) = 172800000
        + (exDragMoveAligned.originalEnd - exDragMoveAligned.originalStart) := by
  have hcomp : handleMouseMoveDates exRange 100 .day exDragMoveAligned 0
      = some (172800000, 345600000) := by
    norm_num [handleMouseMoveDates, exDragMoveAligned, exRange, snapToGrid, xToDate,
      dateToX, startOfDay_eq_ediv, ratTrunc, msPerDay, addDays, diffInDays]
  exact ⟨hcomp, C7_move_preserves_duration exRange 100 .day exDragMoveAligned 0
    (by decide) (by norm_num) rfl ⟨2, by decide⟩ 172800000 345600000 hcomp⟩

/-- C6 counterexample: the claim's consequence "a resize always keeps at
least 1 day of duration" fails on the code for a non-day-aligned current
end.  Here the current end is day 5.5 (475200000 ms) and the snapped
candidate start is day 5 — strictly before the end, so no clamping — yet
after day-start normalization the reported preview is (day 5, day 5):
zero days. -/
theorem C6_counterexample :
    handleMouseMoveDates exRange 100 .day exDragResizeLeft 0
        = some (432000000, 432000000) ∧
      xToDate (snapToGrid (exDragResizeLeft.startTaskX
          + (0 - exDragResizeLeft.startX)) exRange 100 .day) exRange 100
        < exDragResizeLeft.originalEnd ∧
      ¬ ((432000000 : ℤ) + msPerDay ≤ 432000000) := by
  refine ⟨?_, ?_, by decide⟩
  · norm_num [handleMouseMoveDates, exDragResizeLeft, exRange, snapToGrid,
      xToDate, dateToX, startOfDay_eq_ediv, ratTrunc, msPerDay, addDays,
      diffInDays]
  · norm_num [exDragResizeLeft, exRange, snapToGrid, xToDate, dateToX,
      startOfDay_eq_ediv, ratTrunc, msPerDay]

/-- C6 (amended): during resize-left, whenever the snapped candidate
start is ≥ the current end, the reported dates are exactly one day
apart: reported start = (day-start of the current end) − 1 day =
reported end − 1 day; symmetrically for resize-right.  Consequently a
resize preview never inverts (reported start ≤ reported end always), and
at least one full day of duration is kept whenever the task's current
end (resp. start) date is day-aligned — the system's granularity; for a
non-day-aligned current date the normalized preview can collapse to zero
days (see the counterexample). -/
theorem C6_resize_clamping (r : DateRange) (w : ℚ) (vm : ViewMode)
    (st : DragState) (clientX : ℚ) (hr : r.start < r.«end») (hw : 0 < w) :
    (∀ ns ne, st.mode = some .resizeLeft →
        handleMouseMoveDates r w vm st clientX = some (ns, ne) →
        ns ≤ ne ∧
          (st.originalEnd ≤ xToDate (snapToGrid
              (st.startTaskX + (clientX - st.startX)) r w vm) r w →
            ns = addDays ne (-1) ∧ ne = startOfDay st.originalEnd) ∧
          (startOfDay st.originalEnd = st.originalEnd →
            ns + msPerDay ≤ ne)) ∧
      (∀ ns ne, st.mode = some .resizeRight →
        handleMouseMoveDates r w vm st clientX = some (ns, ne) →
        ns ≤ ne ∧
          (xToDate (snapToGrid (st.startTaskX + (st.startTaskWidth
              + (clientX - st.startX))) r w vm) r w ≤ st.originalStart →
            ne = addDays ns 1 ∧ ns = startOfDay st.originalStart) ∧
          (startOfDay st.originalStart = st.originalStart →
            ns + msPerDay ≤ ne)) := by
  have hpos := msPerDay_pos
  constructor
  · intro ns ne hmode h
    rw [handleMouseMoveDates_resizeLeft r w vm st clientX hmode] at h
    simp only [Option.some.injEq, Prod.mk.injEq] at h
    obtain ⟨hns, hne⟩ := h
    have hcand_eq : xToDate (snapToGrid
        (st.startTaskX + (clientX - st.startX)) r w vm) r w
        = startOfDay (xToDate (st.startTaskX + (clientX - st.startX)) r w) :=
      xToDate_snapToGrid _ r w vm hr hw.ne'
    have hcand_dvd : msPerDay ∣ xToDate (snapToGrid
        (st.startTaskX + (clientX - st.startX)) r w vm) r w := by
      rw [hcand_eq]; exact startOfDay_dvd _
    by_cases hc : st.originalEnd ≤ xToDate (snapToGrid
        (st.startTaskX + (clientX - st.startX)) r w vm) r w
    · rw [if_pos hc] at hns
      have hshift : startOfDay (st.originalEnd + (-1) * msPerDay)
          = startOfDay st.originalEnd + (-1) * msPerDay :=
        startOfDay_add_mul st.originalEnd (-1)
      have hns' : ns = startOfDay st.originalEnd - msPerDay := by
        rw [← hns, addDays_neg_one,
          show st.originalEnd - msPerDay = st.originalEnd + (-1) * msPerDay
            by ring, hshift]
        ring
      refine ⟨?_, fun _ => ⟨?_, hne.symm⟩, fun _ => ?_⟩
      · rw [hns', ← hne]; omega
      · rw [addDays_neg_one, hns', ← hne]
      · rw [hns', ← hne]; omega
    · rw [if_neg hc] at hns
      push_neg at hc
      have hcal : startOfDay (xToDate (snapToGrid
          (st.startTaskX + (clientX - st.startX)) r w vm) r w)
          = xToDate (snapToGrid
            (st.startTaskX + (clientX - st.startX)) r w vm) r w :=
        (startOfDay_eq_self_iff _).mpr hcand_dvd
      rw [hcal] at hns
      refine ⟨?_, fun hge => absurd hge (not_le.mpr hc), fun hal => ?_⟩
      · rw [← hns, ← hne]
        exact le_trans (le_of_eq hcal.symm) (startOfDay_mono (le_of_lt hc))
      · have hgap := day_aligned_gap hcand_dvd
          ((startOfDay_eq_self_iff st.originalEnd).mp hal) hc
        rw [← hns, ← hne, hal]
        exact hgap
  · intro ns ne hmode h
    rw [handleMouseMoveDates_resizeRight r w vm st clientX hmode] at h
    simp only [Option.some.injEq, Prod.mk.injEq] at h
    obtain ⟨hns, hne⟩ := h
    have hcand_eq : xToDate (snapToGrid (st.startTaskX + (st.startTaskWidth
        + (clientX - st.startX))) r w vm) r w
        = startOfDay (xToDate (st.startTaskX + (st.startTaskWidth
          + (clientX - st.startX))) r w) :=
      xToDate_snapToGrid _ r w vm hr hw.ne'
    have hcand_dvd : msPerDay ∣ xToDate (snapToGrid (st.startTaskX
        + (st.startTaskWidth + (clientX - st.startX))) r w vm) r w := by
      rw [hcand_eq]; exact startOfDay_dvd _
    by_cases hc : xToDate (snapToGrid (st.startTaskX + (st.startTaskWidth
        + (clientX - st.startX))) r w vm) r w ≤ st.originalStart
    · rw [if_pos hc] at hne
      have hshift : startOfDay (st.originalStart + 1 * msPerDay)
          = startOfDay st.originalStart + 1 * msPerDay :=
        startOfDay_add_mul st.originalStart 1
      have hne' : ne = startOfDay st.originalStart + msPerDay := by
        rw [← hne, addDays_one,
          show st.originalStart + msPerDay = st.originalStart + 1 * msPerDay
            by ring, hshift]
        ring
      refine ⟨?_, fun _ => ⟨?_, hns.symm⟩, fun _ => ?_⟩
      · rw [hne', ← hns]; omega
      · rw [addDays_one, hne', ← hns]
      · rw [hne', ← hns]
    · rw [if_neg hc] at hne
      push_neg at hc
      have hcal : startOfDay (xToDate (snapToGrid (st.startTaskX
          + (st.startTaskWidth + (clientX - st.startX))) r w vm) r w)
          = xToDate (snapToGrid (st.startTaskX + (st.startTaskWidth
            + (clientX - st.startX))) r w vm) r w :=
        (startOfDay_eq_self_iff _).mpr hcand_dvd
      rw [hcal] at hne
      refine ⟨?_, fun hge => absurd hge (not_le.mpr hc), fun hal => ?_⟩
      · rw [← hns, ← hne]
        exact le_trans (startOfDay_mono (le_of_lt hc)) (le_of_eq hcal)
      · have hgap := day_aligned_gap
          ((startOfDay_eq_self_iff st.originalStart).mp hal) hcand_dvd hc
        rw [← hns, ← hne, hal]
        exact hgap

/-- Witness for C6: resize-left with a day-aligned current end (day 2)
and a snapped candidate start (day 5) past it reports exactly
(day 1, day 2): clamped to one day, not inverted. -/
theorem C6_resize_clamping_witness :
    handleMouseMoveDates exRange 100 .day exDragResizeLeftClamp 0
        = some (86400000, 172800000) ∧
      (86400000 : ℤ) = addDays 172800000 (-1) ∧
      (86400000 : ℤ) + msPerDay ≤ 172800000 := by
  have hcomp : handleMouseMoveDates exRange 100 .day exDragResizeLeftClamp 0
      = some (86400000, 172800000) := by
    norm_num [handleMouseMoveDates, exDragResizeLeftClamp, exRange, snapToGrid,
      xToDate, dateToX, startOfDay_eq_ediv, ratTrunc, msPerDay, addDays,
      diffInDays]
  have h := (C6_resize_clamping exRange 100 .day exDragResizeLeftClamp 0
      (by decide) (by norm_num)).1 86400000 172800000 rfl hcomp
  have hcand : exDragResizeLeftClamp.originalEnd ≤ xToDate (snapToGrid
      (exDragResizeLeftClamp.startTaskX
        + (0 - exDragResizeLeftClamp.startX)) exRange 100 .day) exRange 100 := by
    norm_num [exDragResizeLeftClamp, exRange, snapToGrid, xToDate, dateToX,
      startOfDay_eq_ediv, ratTrunc, msPerDay]
  exact ⟨hcomp, (h.2.1 hcand).1, h.2.2 (by decide)⟩

/-- C8: an Escape key during an active drag ends the gesture with
`cancelled = true` and the session's original dates — whatever the
current previews are — and clears the controller back to idle. -/
theorem C8_escape_cancels_with_originals (st : ControllerState) (s : DragState)
    (hdrag : st.isDragging = true) (hs : st.session = some s) :
    handleKeyDown st "Escape"
      = ({ isDragging := false, previewStart := none, previewEnd := none,
           session := none },
         [.dragEnd s.task s.originalStart s.originalEnd true
            (isResizeMode s.mode)]) := by
  unfold handleKeyDown
  rw [hdrag, hs]
  simp

/-- Witness for C8: a concrete mid-drag controller whose previews
(999/1999) differ from the originals (0/129600000); Escape reports the
originals and resets the state. -/
theorem C8_escape_cancels_with_originals_witness :
    handleKeyDown exControllerDragging "Escape"
      = ({ isDragging := false, previewStart := none, previewEnd := none,
           session := none },
         [.dragEnd exDragMove.task exDragMove.originalStart
            exDragMove.originalEnd true (isResizeMode exDragMove.mode)]) :=
  C8_escape_cancels_with_originals exControllerDragging exDragMove rfl rfl

theorem handleMouseDown_rejects (cfg : GanttConfig) (st : ControllerState)
    (task : ComputedTask) (clientX : ℚ) (mode : DragMode)
    (h : task.task.isDisabled = true ∨
      (mode = DragMode.move ∧ cfg.allowDrag = false) ∨
      ((mode = DragMode.resizeLeft ∨ mode = DragMode.resizeRight) ∧
        cfg.allowResize = false)) :
    handleMouseDown cfg st task clientX (some mode) = (st, []) := by
  unfold handleMouseDown
  rcases h with hd | ⟨rfl, hcap⟩ | ⟨hm, hcap⟩
  · simp [hd]
  · rcases hd : task.task.isDisabled <;> simp [hd, hcap]
  · rcases hm with rfl | rfl <;> rcases hd : task.task.isDisabled <;>
      simp [hd, hcap]

/-- C9: a pointer-down on a bar starts no drag session and fires no
callback when the requested mode's capability is disabled (move with
`allowDrag = false`, resize with `allowResize = false`), when the task is
disabled, or when the task is a group. -/
theorem C9_drag_start_rejection (cfg : GanttConfig) (st : ControllerState)
    (task : ComputedTask) (clientX : ℚ) (mode : DragMode)
    (h : task.task.isDisabled = true ∨ task.task.type = TaskType.group ∨
      (mode = DragMode.move ∧ cfg.allowDrag = false) ∨
      ((mode = DragMode.resizeLeft ∨ mode = DragMode.resizeRight) ∧
        cfg.allowResize = false)) :
    handleTaskDragStart cfg st task clientX mode = (st, []) := by
  unfold handleTaskDragStart
  rcases h with hd | hg | hcap | hcap
  · simp [hd]
  · simp [hg]
  · by_cases hout : (task.task.isDisabled || (task.task.type == TaskType.group))
      = true
    · rw [if_pos hout]
    · rw [if_neg hout]
      exact handleMouseDown_rejects cfg st task clientX mode (Or.inr (Or.inl hcap))
  · by_cases hout : (task.task.isDisabled || (task.task.type == TaskType.group))
      = true
    · rw [if_pos hout]
    · rw [if_neg hout]
      exact handleMouseDown_rejects cfg st task clientX mode (Or.inr (Or.inr hcap))

/-- Witness for C9: a move pointer-down with dragging disabled in the
configuration leaves the idle controller unchanged and fires nothing. -/
theorem C9_drag_start_rejection_witness :
    handleTaskDragStart
        ({ viewMode := .day, allowDrag := false, allowResize := true }
          : GanttConfig)
        ({} : ControllerState) exCt 0 DragMode.move
      = (({} : ControllerState), []) :=
  C9_drag_start_rejection _ ({} : ControllerState) exCt 0 DragMode.move
    (Or.inr (Or.inr (Or.inl ⟨rfl, rfl⟩)))

end Gantt
